import Mathlib

/-!
Verification development for the AI-Panel Anki add-on.

Shallow embedding of the pure logic of the add-on sources:
 - `src/settings_editor.py` (keybinding editor save path),
 - `src/settings_list.py` (keybinding deletion),
 - `src/referral.py` (referral eligibility),
 - `src/analytics.py` (daily analytics flush gate),
 - `src/tutorial_manager.py` + `src/tutorial_steps.py` (tutorial step engine),
 - the keybinding matcher JavaScript injected by `src/panel.py`.

The Anki add-on manager configuration is modelled as a total map from addon
keys to configuration objects; GUI side effects (tooltips) are modelled as
returned message values.
-/

namespace AIPanel

/-- A keybinding record as stored in the configuration
(`src/settings_editor.py`, `SettingsEditorView.__init__`). -/
structure Keybinding where
  name : String
  keys : List String
  question_template : String
  answer_template : String
deriving DecidableEq

/-- The addon configuration object (the JSON blob persisted by the host).
Fields not touched by the modelled operations are collected in `extra`. -/
structure Config where
  keybindings : List Keybinding
  extra : List (String × String)
deriving DecidableEq

/-- The addon key used for reads throughout the settings views
(`ADDON_NAME = "openevidence_panel"` in `src/settings_editor.py` line 10). -/
def ADDON_NAME : String := "openevidence_panel"

/-- The addon-manager configuration store: one configuration object per
addon (keyed by the addon directory name). -/
def ConfigStore : Type := String → Config

/-- Anki's `AddonManager.addonFromModule`: a module name is resolved to its
addon by taking the part before the first dot (`module.split(".")[0]`);
both `getConfig` and `writeConfig` apply it, so a module name and its addon
name address the same configuration. -/
def addonFromModule (module : String) : String :=
  ⟨module.data.takeWhile (fun c => c != '.')⟩

/-- `mw.addonManager.writeConfig(module, cfg)` on the modelled store: the
module argument is resolved to its addon via `addonFromModule` and the
configuration is stored under that addon key. -/
def writeConfig (store : ConfigStore) (module : String) (cfg : Config) : ConfigStore :=
  fun k => if k = addonFromModule module then cfg else store k

/-- Python `str.strip()`: drop leading and trailing whitespace. -/
def pyStrip (s : String) : String :=
  ⟨((s.data.dropWhile Char.isWhitespace).reverse.dropWhile Char.isWhitespace).reverse⟩

/-- The test `"{back}" in template` from `src/settings_editor.py` line 398:
substring containment of the literal token. -/
def containsBackToken (s : String) : Bool :=
  decide ("{back}".data <:+: s.data)

/-- The duplicate-scan loop of `SettingsEditorView.save_and_go_back`
(`src/settings_editor.py` lines 409-418): walk the stored keybindings with
their positions, skip the entry being edited, and report whether any other
entry has exactly the same `keys` list. -/
def findDuplicateFrom (i : Nat) (index : Option Nat) (currentKeys : List String) :
    List Keybinding → Bool
  | [] => false
  | kb :: rest =>
    if index = some i then
      findDuplicateFrom (i + 1) index currentKeys rest
    else if kb.keys = currentKeys then true
    else findDuplicateFrom (i + 1) index currentKeys rest

/-- Outcome of the editor save operation: a rejection with the tooltip text
shown to the user, a successful save of an updated configuration object, or
the uncaught IndexError raised by `keybindings[self.index] = ...` when the
edit index is out of range. -/
inductive SaveResult where
  | rejected (msg : String)
  | saved (cfg : Config)
  | indexError
deriving DecidableEq

/-- `SettingsEditorView.save_and_go_back` (`src/settings_editor.py` lines
388-433), as a pure function of the editor state (`self.keybinding`'s name
and keys, `self.index`, the two template text boxes) and the configuration
read from the store under `ADDON_NAME` (the dotless addon name resolves to
itself under `addonFromModule`, so the read is the lookup at that key).
Python `str.strip` is modelled by `pyStrip`. -/
def save_and_go_back (index : Option Nat) (kbName : String) (kbKeys : List String)
    (questionRaw answerRaw : String) (store : ConfigStore) : SaveResult :=
  if kbKeys = [] then
    .rejected "Please set a keyboard shortcut"
  else
    let question_template := (pyStrip questionRaw)
    if containsBackToken question_template then
      .rejected "Front Side Template cannot use {back} - only {front} is available when viewing the question"
    else
      let answer_template := (pyStrip answerRaw)
      let config := store ADDON_NAME
      let keybindings := config.keybindings
      if findDuplicateFrom 0 index kbKeys keybindings then
        .rejected "This key combination is already in use by another shortcut"
      else
        let kb : Keybinding :=
          { name := kbName, keys := kbKeys,
            question_template := question_template,
            answer_template := answer_template }
        match index with
        | none => .saved { config with keybindings := keybindings ++ [kb] }
        | some i =>
          if i < keybindings.length then
            .saved { config with keybindings := keybindings.set i kb }
          else
            .indexError

/-- Effect of `save_and_go_back` on the configuration store: only a
successful save writes, via `mw.addonManager.writeConfig(__name__, config)`
(`src/settings_editor.py` line 433); the addon manager resolves the module
name to its addon key before storing. -/
def save_and_go_back_store (moduleName : String) (index : Option Nat)
    (kbName : String) (kbKeys : List String) (questionRaw answerRaw : String)
    (store : ConfigStore) : ConfigStore :=
  match save_and_go_back index kbName kbKeys questionRaw answerRaw store with
  | .saved cfg => writeConfig store moduleName cfg
  | _ => store

/-- `SettingsListView.delete_keybinding` (`src/settings_list.py` lines
385-396): reject when at most one keybinding remains, otherwise remove the
entry at `index`.  (Python `del keybindings[index]` raises on an
out-of-range index and nothing is written; `List.eraseIdx` likewise leaves
the list unchanged there.)  Returns the stored list and the tooltip shown. -/
def delete_keybinding (keybindings : List Keybinding) (index : Nat) :
    List Keybinding × Option String :=
  if keybindings.length ≤ 1 then
    (keybindings, some "Cannot delete the last keybinding")
  else
    (keybindings.eraseIdx index, none)

/-- The confirmed branch of `SettingsListView.handle_delete_click`
(`src/settings_list.py` lines 296-324): re-check the stored list length,
reject deleting the last keybinding, otherwise defer to
`delete_keybinding`. -/
def handle_delete_confirm (keybindings : List Keybinding) (index : Nat) :
    List Keybinding × Option String :=
  if keybindings.length ≤ 1 then
    (keybindings, some "Cannot delete the last keybinding")
  else
    delete_keybinding keybindings index

/-- No two stored keybindings carry the same `keys` list. -/
def UniqueKeys (l : List Keybinding) : Prop :=
  l.Pairwise (fun a b => a.keys ≠ b.keys)

/-- The tooltip text rejecting a `{back}` token in the front template
(`src/settings_editor.py` line 399). -/
def backTokenMsg : String :=
  "Front Side Template cannot use {back} - only {front} is available when viewing the question"

/-- One session record inside `analytics["daily_usage"][date]`
(`src/analytics.py`, `track_anki_open`): start time and message count. -/
structure SessionRecord where
  time : String
  messages : Nat
deriving DecidableEq

/-- The referral-relevant part of the `analytics` configuration object
(`src/referral.py`, `should_show_referral`): the one-shot flag and the
`daily_usage` dict, modelled as an association list from date strings to
session lists (Python dict keys are distinct). -/
structure ReferralAnalytics where
  has_shown_referral : Bool
  daily_usage : List (String × List SessionRecord)
deriving DecidableEq

/-- `daily_usage.get(today, [])`: look up the sessions recorded today. -/
def todaysSessions (du : List (String × List SessionRecord)) (today : String) :
    List SessionRecord :=
  match du.find? (fun p => p.1 = today) with
  | some p => p.2
  | none => []

/-- `sum(session.get("messages", 0) for session in todays_sessions)`
(`src/referral.py` line 70). -/
def messagesToday (du : List (String × List SessionRecord)) (today : String) : Nat :=
  ((todaysSessions du today).map (fun s => s.messages)).sum

/-- `should_show_referral` (`src/referral.py` lines 43-77) as a pure
function of the analytics record, the two configurable thresholds
(`referral_days_threshold`, absent means default 3; `referral_threshold`,
absent means default 4) and the current date string. -/
def should_show_referral (a : ReferralAnalytics) (daysThresholdCfg msgThresholdCfg : Option Nat)
    (today : String) : Bool :=
  if a.has_shown_referral then false
  else
    let days_active := a.daily_usage.length
    if days_active < daysThresholdCfg.getD 3 then false
    else
      let messages_today := messagesToday a.daily_usage today
      if messages_today < msgThresholdCfg.getD 4 then false
      else true

/-- The stored `analytics["last_analytics_sent"]` value together with the
result of `datetime.fromisoformat` on it (`src/analytics.py` lines
298-311): absent, present but unparseable (the `except` branch), or parsed
to a calendar date, modelled as a day ordinal. -/
inductive LastSent where
  | absent
  | unparseable (raw : String)
  | date (d : Nat)
deriving DecidableEq

/-- `should_send_analytics` (`src/analytics.py` lines 298-311): send when
the watermark is absent, unparseable, or strictly before today. -/
def should_send_analytics (lastSent : LastSent) (today : Nat) : Bool :=
  match lastSent with
  | .absent => true
  | .unparseable _ => true
  | .date d => today > d

/-- Result of one `send_analytics_background` run (`src/analytics.py` lines
314-388): whether the POST was attempted and whether the watermark was
updated. -/
structure SendOutcome where
  attempted : Bool
  watermarkUpdated : Bool
deriving DecidableEq

/-- `send_analytics_background` (`src/analytics.py` lines 314-388) as a
function of the configured endpoint, the watermark, the current day and the
response status of the POST (any network failure is modelled as a non-200
status; the `except` branch swallows it).  The watermark becomes today's
date only on status 200. -/
def send_analytics_background (endpoint : Option String) (lastSent : LastSent)
    (today : Nat) (respStatus : Nat) : LastSent × SendOutcome :=
  match endpoint with
  | none => (lastSent, ⟨false, false⟩)
  | some _ =>
    if respStatus = 200 then (.date today, ⟨true, true⟩)
    else (lastSent, ⟨true, false⟩)

/-- `try_send_daily_analytics` (`src/analytics.py` lines 391-394): flush
only when the daily gate is open. -/
def try_send_daily_analytics (endpoint : Option String) (lastSent : LastSent)
    (today : Nat) (respStatus : Nat) : LastSent × SendOutcome :=
  if should_send_analytics lastSent today then
    send_analytics_background endpoint lastSent today respStatus
  else
    (lastSent, ⟨false, false⟩)

/-- A sequence of `try_send_daily_analytics` calls (startup plus the hourly
timer in `src/__init__.py` lines 466-504), each with its calendar day and
POST response status; returns the final watermark and the outcome of every
call. -/
def run_analytics_calls (endpoint : Option String) (lastSent : LastSent) :
    List (Nat × Nat) → LastSent × List SendOutcome
  | [] => (lastSent, [])
  | (today, respStatus) :: rest =>
    let r := try_send_daily_analytics endpoint lastSent today respStatus
    let rec' := run_analytics_calls endpoint r.1 rest
    (rec'.1, r.2 :: rec'.2)

/-- One tutorial step (`src/tutorial_steps.py`, `TutorialStep`): only the
fields that drive the step machine are modelled (`title`, `subtext` and the
target locator are display-only and do not affect transitions). -/
structure TutorialStep where
  step_id : String
  target_type : String
  advance_on_event : Option String
  action_button : Option String
deriving DecidableEq

/-- The concrete tutorial step list returned by `get_tutorial_steps`
(`src/tutorial_steps.py` lines 159-645), in order. -/
def tutorialSteps : List TutorialStep := [
  ⟨"toggle_panel", "html", some "panel_toggled", none⟩,
  ⟨"create_demo_deck", "none", none, some "Create Practice Deck"⟩,
  ⟨"feature_intro", "none", none, some "Next"⟩,
  ⟨"highlight_text", "coordinates", some "text_highlighted", none⟩,
  ⟨"quick_action_intro", "none", none, some "Next"⟩,
  ⟨"ask_question", "none", some "ask_question_submitted", none⟩,
  ⟨"ask_question_success", "none", none, some "Next"⟩,
  ⟨"add_to_chat_intro", "none", none, some "Next"⟩,
  ⟨"highlight_for_add_to_chat", "coordinates", some "text_highlighted", none⟩,
  ⟨"add_to_chat", "none", some "add_to_chat", none⟩,
  ⟨"add_to_chat_success", "none", none, some "Next"⟩,
  ⟨"shortcuts_intro", "none", none, some "Show Me"⟩,
  ⟨"use_shortcut", "coordinates", some "shortcut_used", none⟩,
  ⟨"quick_actions_complete", "none", none, some "Next"⟩,
  ⟨"start_new_chat", "none", none, some "Done"⟩,
  ⟨"templates_intro", "none", none, some "Next"⟩,
  ⟨"template_shortcuts", "none", none, some "Next"⟩,
  ⟨"try_template_q", "coordinates", some "shortcut_used", none⟩,
  ⟨"template_q_success", "none", none, some "Next"⟩,
  ⟨"clear_chat_after_q", "none", none, some "Done"⟩,
  ⟨"show_answer", "none", some "answer_shown", none⟩,
  ⟨"try_template_a", "coordinates", some "shortcut_used", none⟩,
  ⟨"template_a_success", "none", none, some "Next"⟩,
  ⟨"clear_chat_after_a", "none", none, some "Done"⟩,
  ⟨"try_template_s", "coordinates", some "shortcut_used", none⟩,
  ⟨"template_s_success", "none", none, some "Next"⟩,
  ⟨"templates_complete", "none", none, some "Next"⟩,
  ⟨"open_settings", "widget", some "settings_opened", none⟩,
  ⟨"settings_overview", "none", none, some "Next"⟩,
  ⟨"click_templates", "none", some "templates_opened", none⟩,
  ⟨"templates_list_overview", "none", some "template_edit_opened", none⟩,
  ⟨"templates_edit_explain", "none", none, some "Next"⟩,
  ⟨"templates_go_back_to_list", "none", some "settings_back_to_templates", none⟩,
  ⟨"templates_go_back_to_home", "none", some "settings_back_to_home", none⟩,
  ⟨"click_quick_actions", "none", some "quick_actions_opened", none⟩,
  ⟨"quick_actions_overview", "none", none, some "Next"⟩,
  ⟨"quick_actions_go_back", "none", some "settings_back_to_home", none⟩,
  ⟨"go_back_to_openevidence", "none", some "panel_web_view", none⟩,
  ⟨"signup_recommendation", "none", none, some "Next"⟩,
  ⟨"how_to_signin", "none", none, some "Next"⟩,
  ⟨"why_i_built_this", "none", none, some "Next"⟩,
  ⟨"finish", "none", none, some "Finish"⟩]

/-- The mutable state of `TutorialManager` (`src/tutorial_manager.py`)
together with the two tutorial fields it persists to the configuration
under `ADDON_NAME`. -/
structure TMState where
  tutorial_active : Bool
  current_step_index : Nat
  is_paused : Bool
  coach_visible : Bool
  tutorial_completed : Bool
  tutorial_step_index : Nat
deriving DecidableEq

/-- `TutorialManager._hide_all` (`src/tutorial_manager.py` lines 380-385). -/
def hide_all (s : TMState) : TMState :=
  { s with coach_visible := false }

/-- `TutorialManager._pause_tutorial` (`src/tutorial_manager.py` lines
339-346): set the paused flag and hide the UI, keeping the index. -/
def pause_tutorial (s : TMState) : TMState :=
  hide_all { s with is_paused := true }

/-- `TutorialManager._save_progress` (`src/tutorial_manager.py` lines
387-391). -/
def save_progress (s : TMState) : TMState :=
  { s with tutorial_step_index := s.current_step_index }

/-- `TutorialManager._save_completion` (`src/tutorial_manager.py` lines
393-398). -/
def save_completion (steps : List TutorialStep) (s : TMState) : TMState :=
  { s with tutorial_completed := true, tutorial_step_index := steps.length }

/-- `TutorialManager._complete_tutorial` (`src/tutorial_manager.py` lines
400-410): deactivate, hide the UI and persist completion. -/
def complete_tutorial (steps : List TutorialStep) (s : TMState) : TMState :=
  save_completion steps (hide_all { s with tutorial_active := false })

/-- `TutorialManager._show_current_step` (`src/tutorial_manager.py` lines
196-233): no-op when inactive, complete when the index ran past the list,
otherwise display the step.  The display path resolves the target (possibly
asynchronously, with bounded retries); only the successful synchronous
display is modelled, as a visible coach mark — the retry/skip alternatives
do not run in the same call. -/
def show_current_step (steps : List TutorialStep) (s : TMState) : TMState :=
  if s.tutorial_active = false then s
  else if steps.length ≤ s.current_step_index then complete_tutorial steps s
  else { s with coach_visible := true }

/-- `TutorialManager._resume_tutorial` (`src/tutorial_manager.py` lines
348-351). -/
def resume_tutorial (steps : List TutorialStep) (s : TMState) : TMState :=
  show_current_step steps { s with is_paused := false }

/-- `TutorialManager.advance_to_next_step` (`src/tutorial_manager.py` lines
169-184): increment the index; when it reaches the end, complete the
tutorial, otherwise persist progress and display the next step. -/
def advance_to_next_step (steps : List TutorialStep) (s : TMState) : TMState :=
  let s1 := { s with current_step_index := s.current_step_index + 1 }
  if steps.length ≤ s1.current_step_index then complete_tutorial steps s1
  else show_current_step steps (save_progress s1)

/-- `TutorialManager.handle_event` (`src/tutorial_manager.py` lines
140-167).  Returns `none` for the IndexError raised by
`self.tutorial_steps[self.current_step_index]` when the index is out of
range.  The `panel_opened`-while-paused branch of the source is translated
faithfully even though it sits below the early return for paused
tutorials. -/
def handle_event (steps : List TutorialStep) (s : TMState) (e : String) :
    Option TMState :=
  if s.tutorial_active = false ∨ s.is_paused = true then some s
  else if e = "panel_closed" then
    if s.current_step_index = 3 ∨ s.current_step_index = 4 ∨ s.current_step_index = 5 then
      some (pause_tutorial s)
    else
      some s
  else
    let resumed :=
      if e = "panel_opened" ∧ s.is_paused = true then
        (resume_tutorial steps s, (resume_tutorial steps s).current_step_index != 0)
      else (s, false)
    if resumed.2 then some resumed.1
    else
      match steps.get? resumed.1.current_step_index with
      | none => none
      | some step =>
        if step.advance_on_event = some e then
          some (advance_to_next_step steps resumed.1)
        else
          some resumed.1

/-- A keydown event as seen by the injected listener (`src/panel.py`,
`keysMatch`): the four modifier flags and the `key` string. -/
structure KeyEvent where
  shiftKey : Bool
  ctrlKey : Bool
  metaKey : Bool
  altKey : Bool
  key : String
deriving DecidableEq

/-- The unconditional length-changing full-uppercase mappings of ECMAScript
`toUpperCase()` (Unicode SpecialCasing): characters whose uppercase image
has more than one character, e.g. the German sharp s maps to `SS`.  The
Greek iota-subscript block (whose images likewise expand but consist of
Greek capitals) is not tabulated; characters outside the table keep their
single-character mapping. -/
def jsSpecialUpperTable : List (Char × List Char) := [
  ('ß', ['S', 'S']),
  ('ŉ', ['\u02BC', 'N']),
  ('ǰ', ['J', '\u030C']),
  ('ΐ', ['\u0399', '\u0308', '\u0301']),
  ('ΰ', ['\u03A5', '\u0308', '\u0301']),
  ('և', ['\u0535', '\u0552']),
  ('ẖ', ['H', '\u0331']),
  ('ẗ', ['T', '\u0308']),
  ('ẘ', ['W', '\u030A']),
  ('ẙ', ['Y', '\u030A']),
  ('ẚ', ['A', '\u02BE']),
  ('ﬀ', ['F', 'F']),
  ('ﬁ', ['F', 'I']),
  ('ﬂ', ['F', 'L']),
  ('ﬃ', ['F', 'F', 'I']),
  ('ﬄ', ['F', 'F', 'L']),
  ('ﬅ', ['S', 'T']),
  ('ﬆ', ['S', 'T']),
  ('ﬓ', ['\u0544', '\u0546']),
  ('ﬔ', ['\u0544', '\u0535']),
  ('ﬕ', ['\u0544', '\u053B']),
  ('ﬖ', ['\u054E', '\u0546']),
  ('ﬗ', ['\u0544', '\u053D'])]

/-- Full uppercase of one character: the special mapping when there is one,
otherwise the single-character uppercase (ASCII in this model; non-ASCII
simple mappings do not matter for the key names considered here). -/
def jsUpperChar (c : Char) : List Char :=
  match jsSpecialUpperTable.lookup c with
  | some u => u
  | none => [c.toUpper]

/-- JavaScript `event.key.toUpperCase()` (applied only to length-1 keys):
Unicode full case mapping, which may lengthen the string (ß becomes SS). -/
def jsToUpper (s : String) : String :=
  ⟨s.data.flatMap jsUpperChar⟩

/-- The five logical modifier labels the injected `keysMatch` can record. -/
def modifierNames : List String :=
  ["Shift", "Control", "Meta", "Control/Meta", "Alt"]

/-- The `pressedKeys` object built by the injected `keysMatch`
(`src/panel.py` lines 942-964): one entry per held modifier (platform
dependent) plus the uppercased key when its string has length exactly 1.
The JS stores these as object properties; the entries are pairwise distinct
(proved below), so a list is a faithful model and its length is the
property count. -/
def pressedKeys (isMac : Bool) (e : KeyEvent) : List String :=
  (if e.shiftKey then ["Shift"] else []) ++
  (if isMac && e.ctrlKey then ["Control"] else []) ++
  (if isMac && e.metaKey then ["Meta"] else []) ++
  (if !isMac && (e.ctrlKey || e.metaKey) then ["Control/Meta"] else []) ++
  (if e.altKey then ["Alt"] else []) ++
  (if e.key.length = 1 then [jsToUpper e.key] else [])

/-- The injected `keysMatch` (`src/panel.py` lines 942-978): every required
key is held and the count of held keys equals the count of required keys. -/
def keysMatch (isMac : Bool) (e : KeyEvent) (requiredKeys : List String) : Bool :=
  requiredKeys.all (fun k => (pressedKeys isMac e).contains k) &&
  ((pressedKeys isMac e).length == requiredKeys.length)

/-- The keydown dispatch loop (`src/panel.py` lines 1062-1090): trigger the
first keybinding in list order whose keys match, then stop. -/
def firstTriggered (isMac : Bool) (e : KeyEvent) : List Keybinding → Option Keybinding
  | [] => none
  | b :: rest =>
    if keysMatch isMac e b.keys then some b else firstTriggered isMac e rest

end AIPanel

namespace AIPanel

/-- Soundness of the duplicate-scan loop: if it reports no duplicate, then
every non-skipped entry has a `keys` list different from the candidate. -/
theorem findDuplicateFrom_eq_false (index : Option Nat) (currentKeys : List String) :
    ∀ (l : List Keybinding) (start : Nat),
      findDuplicateFrom start index currentKeys l = false →
      ∀ (t : Nat) (ht : t < l.length), index ≠ some (start + t) →
        (l.get ⟨t, ht⟩).keys ≠ currentKeys := by
  intro l
  induction l with
  | nil => intro start _ t ht; exact absurd ht (by simp)
  | cons kb rest ih =>
    intro start hfind t ht hskip
    by_cases hidx : index = some start
    · rw [findDuplicateFrom, if_pos hidx] at hfind
      match t with
      | 0 => exact absurd hidx (by simpa using hskip)
      | t' + 1 =>
        have := ih (start + 1) hfind t' (by simpa using ht)
          (by rw [show start + 1 + t' = start + (t' + 1) by omega]; exact hskip)
        simpa using this
    · rw [findDuplicateFrom, if_neg hidx] at hfind
      by_cases hkeys : kb.keys = currentKeys
      · rw [if_pos hkeys] at hfind; exact absurd hfind (by simp)
      · rw [if_neg hkeys] at hfind
        match t with
        | 0 => simpa using hkeys
        | t' + 1 =>
          have := ih (start + 1) hfind t' (by simpa using ht)
            (by rw [show start + 1 + t' = start + (t' + 1) by omega]; exact hskip)
          simpa using this

/-- Completeness of the duplicate-scan loop from position 0: a non-skipped
entry with the same `keys` list forces it to report a duplicate. -/
theorem findDuplicateFrom_eq_true (index : Option Nat) (currentKeys : List String)
    (l : List Keybinding) (t : Nat) (ht : t < l.length)
    (hskip : index ≠ some t) (heq : (l.get ⟨t, ht⟩).keys = currentKeys) :
    findDuplicateFrom 0 index currentKeys l = true := by
  cases hfind : findDuplicateFrom 0 index currentKeys l with
  | true => rfl
  | false =>
    exact absurd heq
      (findDuplicateFrom_eq_false index currentKeys l 0 hfind t ht (by simpa using hskip))

/-- `takeWhile` passes over a prefix all of whose elements satisfy the
predicate. -/
theorem takeWhile_append_of_all {α : Type} (p : α → Bool) :
    ∀ (l₁ l₂ : List α), (∀ a ∈ l₁, p a = true) →
      (l₁ ++ l₂).takeWhile p = l₁ ++ l₂.takeWhile p := by
  intro l₁
  induction l₁ with
  | nil => intro l₂ _; rfl
  | cons a t ih =>
    intro l₂ h
    have hpa : p a = true := h a (by simp)
    rw [List.cons_append, List.takeWhile_cons, hpa, if_pos rfl]
    rw [ih l₂ (fun b hb => h b (by simp [hb]))]
    rw [List.cons_append]

/-- The addon manager resolves the editor module `<pkg>.settings_editor` to
the addon `<pkg>` whenever the package name itself contains no dot. -/
theorem addonFromModule_append (pkg : String) (hpkg : '.' ∉ pkg.data) :
    addonFromModule (pkg ++ ".settings_editor") = pkg := by
  obtain ⟨l⟩ := pkg
  show String.mk ((l ++ ".settings_editor".data).takeWhile (fun c => c != '.')) = ⟨l⟩
  have hall : ∀ a ∈ l, (fun c => c != '.') a = true := by
    intro a ha
    have hne : a ≠ '.' := fun he => hpkg (he ▸ ha)
    simpa using hne
  rw [takeWhile_append_of_all _ l ".settings_editor".data hall]
  have h2 : ".settings_editor".data.takeWhile (fun c => c != '.') = [] := by decide
  rw [h2, List.append_nil]

/-- Counterexample to C2 as stated: a concrete successful save through the
editor changes the configuration stored under `"openevidence_panel"`,
because the addon manager resolves `"openevidence_panel.settings_editor"`
to the addon `"openevidence_panel"` before writing. -/
theorem editor_save_changes_openevidence_panel_config :
    (save_and_go_back_store "openevidence_panel.settings_editor" none "New Shortcut"
        ["Control", "J"] "{front}" "{back}"
        (fun _ => ⟨[⟨"Standard Explain", ["Control", "Shift", "S"], "", ""⟩], []⟩)) ADDON_NAME
      ≠ (fun _ => (⟨[⟨"Standard Explain", ["Control", "Shift", "S"], "", ""⟩], []⟩ : Config))
          ADDON_NAME := by
  decide

/-- Claim C2 (amended): the editor's write under `__name__`
(`<pkg>.settings_editor`) lands on the addon `<pkg>`'s configuration — the
very object the editor reads under `"openevidence_panel"` when the addon
directory carries that name — so a successful save persists the updated
configuration under the addon key and leaves every other addon's
configuration unchanged, while a rejected or failed save leaves the whole
store unchanged. -/
theorem editor_save_writes_addon_config (pkg : String) (hpkg : '.' ∉ pkg.data)
    (index : Option Nat) (kbName : String) (kbKeys : List String)
    (questionRaw answerRaw : String) (store : ConfigStore) :
    (∀ cfg, save_and_go_back index kbName kbKeys questionRaw answerRaw store = .saved cfg →
      (save_and_go_back_store (pkg ++ ".settings_editor") index kbName kbKeys
          questionRaw answerRaw store) pkg = cfg ∧
      ∀ k, k ≠ pkg →
        (save_and_go_back_store (pkg ++ ".settings_editor") index kbName kbKeys
            questionRaw answerRaw store) k = store k) ∧
    ((∀ cfg, save_and_go_back index kbName kbKeys questionRaw answerRaw store ≠ .saved cfg) →
      save_and_go_back_store (pkg ++ ".settings_editor") index kbName kbKeys
          questionRaw answerRaw store = store) := by
  constructor
  · intro cfg hsave
    unfold save_and_go_back_store
    rw [hsave]
    constructor
    · show writeConfig store (pkg ++ ".settings_editor") cfg pkg = cfg
      unfold writeConfig
      rw [addonFromModule_append pkg hpkg, if_pos rfl]
    · intro k hk
      show writeConfig store (pkg ++ ".settings_editor") cfg k = store k
      unfold writeConfig
      rw [addonFromModule_append pkg hpkg, if_neg hk]
  · intro hnot
    unfold save_and_go_back_store
    cases hres : save_and_go_back index kbName kbKeys questionRaw answerRaw store with
    | saved cfg => exact absurd hres (hnot cfg)
    | rejected msg => rfl
    | indexError => rfl

/-- Witness for C2 (amended): the concrete save from the counterexample
lands under `"openevidence_panel"` as the appended two-entry configuration,
and another addon's configuration is untouched. -/
theorem editor_save_writes_addon_config_witness :
    (save_and_go_back_store ("openevidence_panel" ++ ".settings_editor") none "New Shortcut"
        ["Control", "J"] "{front}" "{back}"
        (fun _ => ⟨[⟨"Standard Explain", ["Control", "Shift", "S"], "", ""⟩], []⟩))
        "openevidence_panel"
      = ⟨[⟨"Standard Explain", ["Control", "Shift", "S"], "", ""⟩,
          ⟨"New Shortcut", ["Control", "J"], "{front}", "{back}"⟩], []⟩ ∧
    (save_and_go_back_store ("openevidence_panel" ++ ".settings_editor") none "New Shortcut"
        ["Control", "J"] "{front}" "{back}"
        (fun _ => ⟨[⟨"Standard Explain", ["Control", "Shift", "S"], "", ""⟩], []⟩))
        "another_addon"
      = (fun _ => (⟨[⟨"Standard Explain", ["Control", "Shift", "S"], "", ""⟩], []⟩ : Config))
          "another_addon" := by
  have h := (editor_save_writes_addon_config "openevidence_panel" (by decide) none
      "New Shortcut" ["Control", "J"] "{front}" "{back}"
      (fun _ => ⟨[⟨"Standard Explain", ["Control", "Shift", "S"], "", ""⟩], []⟩)).1
      ⟨[⟨"Standard Explain", ["Control", "Shift", "S"], "", ""⟩,
        ⟨"New Shortcut", ["Control", "J"], "{front}", "{back}"⟩], []⟩
      (by decide)
  exact ⟨h.1, h.2 "another_addon" (by decide)⟩

/-- Removing an out-of-range index leaves a list unchanged (as Python's
`del l[i]` raises and writes nothing). -/
theorem eraseIdx_of_length_le {α : Type} (l : List α) (i : Nat)
    (h : l.length ≤ i) : l.eraseIdx i = l := by
  induction l generalizing i with
  | nil => rfl
  | cons a t ih =>
    match i with
    | 0 => exact absurd h (by simp)
    | i' + 1 =>
      show a :: t.eraseIdx i' = a :: t
      rw [ih i' (by simpa using h)]

/-- Claim C8: with exactly one stored keybinding, both the confirm-click
check and the deferred delete reject the request with a user-visible message
and leave the list unchanged; and a delete never empties a non-empty list. -/
theorem delete_last_keybinding_rejected (l : List Keybinding) (i : Nat) :
    (l.length = 1 →
      handle_delete_confirm l i = (l, some "Cannot delete the last keybinding") ∧
      delete_keybinding l i = (l, some "Cannot delete the last keybinding")) ∧
    (l ≠ [] → (handle_delete_confirm l i).1 ≠ [] ∧ (delete_keybinding l i).1 ≠ []) := by
  constructor
  · intro h1
    have hle : l.length ≤ 1 := by omega
    constructor
    · unfold handle_delete_confirm; rw [if_pos hle]
    · unfold delete_keybinding; rw [if_pos hle]
  · intro hne
    have hdel : (delete_keybinding l i).1 ≠ [] := by
      unfold delete_keybinding
      by_cases hle : l.length ≤ 1
      · rw [if_pos hle]; exact hne
      · rw [if_neg hle]
        intro hnil
        have hnil' : l.eraseIdx i = [] := hnil
        have hlen : (l.eraseIdx i).length = 0 := by rw [hnil']; rfl
        by_cases hi : i < l.length
        · have := List.length_eraseIdx_add_one hi
          omega
        · rw [eraseIdx_of_length_le l i (by omega)] at hlen
          omega
    refine ⟨?_, hdel⟩
    unfold handle_delete_confirm
    by_cases hle : l.length ≤ 1
    · rw [if_pos hle]; exact hne
    · rw [if_neg hle]; exact hdel

/-- Witness for C8 at the concrete one-element list from the spec example. -/
theorem delete_last_keybinding_rejected_witness :
    handle_delete_confirm [⟨"Standard Explain", ["Control", "Shift", "S"], "", ""⟩] 0
      = ([⟨"Standard Explain", ["Control", "Shift", "S"], "", ""⟩],
         some "Cannot delete the last keybinding") ∧
    (handle_delete_confirm [⟨"Standard Explain", ["Control", "Shift", "S"], "", ""⟩] 0).1 ≠ [] :=
  ⟨((delete_last_keybinding_rejected _ 0).1 (by decide)).1,
   ((delete_last_keybinding_rejected _ 0).2 (by decide)).1⟩

/-- Claim C9: a save attempt whose front (question) template contains the
token `{back}` is rejected with a user-visible message and nothing is
written; with a non-empty key list the rejection is exactly the `{back}`
tooltip; and a front template without `{back}` never fails this validation. -/
theorem front_template_back_token_rejected (moduleName : String) (index : Option Nat)
    (kbName : String) (kbKeys : List String) (questionRaw answerRaw : String)
    (store : ConfigStore) :
    (containsBackToken (pyStrip questionRaw) = true →
      (∃ msg, save_and_go_back index kbName kbKeys questionRaw answerRaw store
          = .rejected msg) ∧
      save_and_go_back_store moduleName index kbName kbKeys questionRaw answerRaw store
        = store) ∧
    (kbKeys ≠ [] → containsBackToken (pyStrip questionRaw) = true →
      save_and_go_back index kbName kbKeys questionRaw answerRaw store
        = .rejected backTokenMsg) ∧
    (containsBackToken (pyStrip questionRaw) = false →
      save_and_go_back index kbName kbKeys questionRaw answerRaw store
        ≠ .rejected backTokenMsg) := by
  refine ⟨?_, ?_, ?_⟩
  · intro hback
    by_cases hkeys : kbKeys = []
    · have hres : save_and_go_back index kbName kbKeys questionRaw answerRaw store
          = .rejected "Please set a keyboard shortcut" := by
        simp [save_and_go_back, hkeys]
      exact ⟨⟨_, hres⟩, by simp [save_and_go_back_store, hres]⟩
    · have hres : save_and_go_back index kbName kbKeys questionRaw answerRaw store
          = .rejected backTokenMsg := by
        simp [save_and_go_back, hkeys, hback, backTokenMsg]
      exact ⟨⟨_, hres⟩, by simp [save_and_go_back_store, hres]⟩
  · intro hkeys hback
    simp [save_and_go_back, hkeys, hback, backTokenMsg]
  · intro hback
    by_cases hkeys : kbKeys = []
    · simp [save_and_go_back, hkeys, backTokenMsg]
    · simp only [save_and_go_back, hkeys, hback, if_neg, ite_false, Bool.false_eq_true,
        if_false]
      split
      · simp [backTokenMsg]
      · split
        · simp
        · split
          · simp
          · simp

/-- Witness for C9: saving a new shortcut whose front template is
`"explain {back}"` is rejected with the `{back}` tooltip and the store is
untouched. -/
theorem front_template_back_token_rejected_witness :
    save_and_go_back none "New Shortcut" ["Control", "J"] "explain {back}" ""
        (fun _ => ⟨[], []⟩)
      = .rejected backTokenMsg ∧
    save_and_go_back_store "openevidence_panel.settings_editor" none "New Shortcut"
        ["Control", "J"] "explain {back}" "" (fun _ => ⟨[], []⟩)
      = (fun _ => ⟨[], []⟩) :=
  ⟨(front_template_back_token_rejected "openevidence_panel.settings_editor" none
      "New Shortcut" ["Control", "J"] "explain {back}" "" (fun _ => ⟨[], []⟩)).2.1
      (by decide) (by decide),
   ((front_template_back_token_rejected "openevidence_panel.settings_editor" none
      "New Shortcut" ["Control", "J"] "explain {back}" "" (fun _ => ⟨[], []⟩)).1
      (by decide)).2⟩

/-- Claim C3: attempting to save a keybinding whose `keys` list equals that
of another (non-skipped) stored entry is rejected with a user-visible
message and the store is unchanged; and a successful save preserves the
invariant that no two stored entries have identical `keys` lists. -/
theorem keybinding_uniqueness (moduleName : String) (index : Option Nat)
    (kbName : String) (kbKeys : List String) (questionRaw answerRaw : String)
    (store : ConfigStore) :
    ((∃ (t : Nat) (ht : t < (store ADDON_NAME).keybindings.length),
        index ≠ some t ∧ ((store ADDON_NAME).keybindings.get ⟨t, ht⟩).keys = kbKeys) →
      (∃ msg, save_and_go_back index kbName kbKeys questionRaw answerRaw store
          = .rejected msg) ∧
      save_and_go_back_store moduleName index kbName kbKeys questionRaw answerRaw store
        = store) ∧
    (∀ cfg, save_and_go_back index kbName kbKeys questionRaw answerRaw store = .saved cfg →
      UniqueKeys (store ADDON_NAME).keybindings → UniqueKeys cfg.keybindings) := by
  constructor
  · rintro ⟨t, ht, hskip, heq⟩
    have hdup : findDuplicateFrom 0 index kbKeys (store ADDON_NAME).keybindings = true :=
      findDuplicateFrom_eq_true index kbKeys _ t ht hskip heq
    by_cases hkeys : kbKeys = []
    · have hres : save_and_go_back index kbName kbKeys questionRaw answerRaw store
          = .rejected "Please set a keyboard shortcut" := by
        simp [save_and_go_back, hkeys]
      exact ⟨⟨_, hres⟩, by simp [save_and_go_back_store, hres]⟩
    · by_cases hback : containsBackToken (pyStrip questionRaw) = true
      · have hres : save_and_go_back index kbName kbKeys questionRaw answerRaw store
            = .rejected backTokenMsg := by
          simp [save_and_go_back, hkeys, hback, backTokenMsg]
        exact ⟨⟨_, hres⟩, by simp [save_and_go_back_store, hres]⟩
      · have hbackf : containsBackToken (pyStrip questionRaw) = false := by
          cases h : containsBackToken (pyStrip questionRaw)
          · rfl
          · exact absurd h hback
        have hres : save_and_go_back index kbName kbKeys questionRaw answerRaw store
            = .rejected "This key combination is already in use by another shortcut" := by
          simp [save_and_go_back, hkeys, hbackf, hdup]
        exact ⟨⟨_, hres⟩, by simp [save_and_go_back_store, hres]⟩
  · intro cfg hsave huniq
    by_cases hkeys : kbKeys = []
    · simp [save_and_go_back, hkeys] at hsave
    · by_cases hback : containsBackToken (pyStrip questionRaw) = true
      · simp [save_and_go_back, hkeys, hback] at hsave
      · have hbackf : containsBackToken (pyStrip questionRaw) = false := by
          cases h : containsBackToken (pyStrip questionRaw)
          · rfl
          · exact absurd h hback
        by_cases hdupb : findDuplicateFrom 0 index kbKeys (store ADDON_NAME).keybindings = true
        · simp [save_and_go_back, hkeys, hbackf, hdupb] at hsave
        · have hdupf : findDuplicateFrom 0 index kbKeys (store ADDON_NAME).keybindings = false := by
            cases h : findDuplicateFrom 0 index kbKeys (store ADDON_NAME).keybindings
            · rfl
            · exact absurd h hdupb
          have hnodup := findDuplicateFrom_eq_false index kbKeys
            (store ADDON_NAME).keybindings 0 hdupf
          cases index with
          | none =>
            simp [save_and_go_back, hkeys, hbackf, hdupf] at hsave
            subst hsave
            show UniqueKeys ((store ADDON_NAME).keybindings ++
              [⟨kbName, kbKeys, (pyStrip questionRaw), (pyStrip answerRaw)⟩])
            refine List.pairwise_append.mpr ⟨huniq, List.pairwise_singleton _ _, ?_⟩
            intro a ha b hb
            obtain ⟨t, ht, rfl⟩ := List.mem_iff_getElem.mp ha
            have hne := hnodup t ht (by simp)
            simp only [List.mem_singleton] at hb
            subst hb
            simpa using hne
          | some i =>
            by_cases hlt : i < (store ADDON_NAME).keybindings.length
            · simp [save_and_go_back, hkeys, hbackf, hdupf, hlt] at hsave
              subst hsave
              show UniqueKeys ((store ADDON_NAME).keybindings.set i
                ⟨kbName, kbKeys, (pyStrip questionRaw), (pyStrip answerRaw)⟩)
              rw [UniqueKeys, List.pairwise_iff_getElem] at huniq ⊢
              intro p q hp hq hpq
              rw [List.length_set] at hp hq
              rw [List.getElem_set, List.getElem_set]
              by_cases hip : i = p
              · subst hip
                rw [if_pos rfl, if_neg (by omega)]
                have hne := hnodup q hq (by simp; omega)
                intro h
                exact hne (by simpa using h.symm)
              · rw [if_neg hip]
                by_cases hiq : i = q
                · subst hiq
                  rw [if_pos rfl]
                  have hne := hnodup p hp (by simp; omega)
                  simpa using hne
                · rw [if_neg hiq]
                  exact huniq p q hp hq hpq
            · simp [save_and_go_back, hkeys, hbackf, hdupf, hlt] at hsave

/-- Witness for C3 at the spec example: one stored keybinding with keys
`Control+Shift+S`; adding a new binding with the same keys is rejected and
the store is unchanged. -/
theorem keybinding_uniqueness_witness :
    (∃ msg, save_and_go_back none "New Shortcut" ["Control", "Shift", "S"] "{front}" "{back}"
        (fun _ => ⟨[⟨"Standard Explain", ["Control", "Shift", "S"], "", ""⟩], []⟩)
        = .rejected msg) ∧
    save_and_go_back_store "openevidence_panel.settings_editor" none "New Shortcut"
        ["Control", "Shift", "S"] "{front}" "{back}"
        (fun _ => ⟨[⟨"Standard Explain", ["Control", "Shift", "S"], "", ""⟩], []⟩)
      = (fun _ => ⟨[⟨"Standard Explain", ["Control", "Shift", "S"], "", ""⟩], []⟩) :=
  (keybinding_uniqueness "openevidence_panel.settings_editor" none "New Shortcut"
      ["Control", "Shift", "S"] "{front}" "{back}"
      (fun _ => ⟨[⟨"Standard Explain", ["Control", "Shift", "S"], "", ""⟩], []⟩)).1
    ⟨0, by decide, by decide, by decide⟩

/-- Claim C4: `should_show_referral()` returns true iff the referral was not
previously shown, the number of distinct days with recorded activity is at
least the days threshold (default 3) and the message count summed over all
of today's sessions is at least the message threshold (default 4); with the
default thresholds, a `daily_usage` covering exactly one distinct day makes
it false regardless of message count. -/
theorem should_show_referral_iff (a : ReferralAnalytics)
    (daysThresholdCfg msgThresholdCfg : Option Nat) (today : String) :
    (should_show_referral a daysThresholdCfg msgThresholdCfg today = true ↔
      (a.has_shown_referral = false ∧
       daysThresholdCfg.getD 3 ≤ a.daily_usage.length ∧
       msgThresholdCfg.getD 4 ≤ messagesToday a.daily_usage today)) ∧
    (a.daily_usage.length = 1 →
      should_show_referral a none none today = false) := by
  constructor
  · unfold should_show_referral
    by_cases hshown : a.has_shown_referral
    · simp [hshown]
    · by_cases hdays : a.daily_usage.length < daysThresholdCfg.getD 3
      · simp [hshown, hdays]
      · by_cases hmsgs : messagesToday a.daily_usage today < msgThresholdCfg.getD 4
        · simp [hshown, hdays, hmsgs]
        · simp [hshown, hdays, hmsgs]
          omega
  · intro hone
    unfold should_show_referral
    by_cases hshown : a.has_shown_referral
    · simp [hshown]
    · simp [hshown, hone]

/-- Witness for C4: an analytics record with one active day and a large
message count today is still ineligible under the default thresholds. -/
theorem should_show_referral_iff_witness :
    should_show_referral
      ⟨false, [("2026-10-12", [⟨"09:00:00", 99⟩])]⟩ none none "2026-10-12" = false :=
  (should_show_referral_iff ⟨false, [("2026-10-12", [⟨"09:00:00", 99⟩])]⟩
      none none "2026-10-12").2 (by decide)

/-- Counterexample to C5 as stated: with the watermark at day 4, two calls
on day 5 whose first POST fails (status 500) and whose second succeeds both
attempt a network flush — two flushes are attempted on one calendar day. -/
theorem analytics_two_attempts_same_day :
    ((run_analytics_calls (some "endpoint") (.date 4) [(5, 500), (5, 200)]).2.countP
        (fun o => o.attempted) = 2) ∧
    ¬ ((run_analytics_calls (some "endpoint") (.date 4) [(5, 500), (5, 200)]).2.countP
        (fun o => o.attempted) ≤ 1) := by
  constructor
  · rfl
  · decide

/-- Once the watermark reads today, no further call on the same day attempts
anything, so none updates the watermark. -/
theorem run_analytics_calls_no_update_from_today (endpoint : Option String) (today : Nat) :
    ∀ calls : List (Nat × Nat), (∀ c ∈ calls, c.1 = today) →
      (run_analytics_calls endpoint (.date today) calls).2.countP
          (fun o => o.watermarkUpdated) = 0 := by
  intro calls
  induction calls with
  | nil => intro _; simp [run_analytics_calls]
  | cons c rest ih =>
    intro hday
    obtain ⟨d, r⟩ := c
    have hc : d = today := hday (d, r) (by simp)
    subst hc
    have hstep : try_send_daily_analytics endpoint (.date d) d r
        = (.date d, ⟨false, false⟩) := by
      unfold try_send_daily_analytics
      rw [if_neg]
      simp [should_send_analytics]
    simp only [run_analytics_calls, hstep, List.countP_cons]
    have := ih (fun c hc => hday c (List.mem_cons_of_mem _ hc))
    simpa using this

/-- Claim C5 (amended): a flush is attempted only when the watermark is
absent, unparseable, or strictly before today; the watermark is updated only
by an attempted POST returning status 200; consequently at most one
*successful* flush happens per calendar day (a failed attempt leaves the
gate open, so further attempts may occur the same day). -/
theorem analytics_daily_flush_gate (endpoint : Option String) (lastSent : LastSent)
    (today respStatus : Nat) :
    ((try_send_daily_analytics endpoint lastSent today respStatus).2.attempted = true →
      (lastSent = .absent ∨ (∃ raw, lastSent = .unparseable raw) ∨
       (∃ d, lastSent = .date d ∧ d < today))) ∧
    ((try_send_daily_analytics endpoint lastSent today respStatus).2.watermarkUpdated = true →
      respStatus = 200 ∧
      (try_send_daily_analytics endpoint lastSent today respStatus).2.attempted = true ∧
      (try_send_daily_analytics endpoint lastSent today respStatus).1 = .date today) ∧
    ((try_send_daily_analytics endpoint lastSent today respStatus).2.watermarkUpdated = false →
      (try_send_daily_analytics endpoint lastSent today respStatus).1 = lastSent) ∧
    (∀ calls : List (Nat × Nat), (∀ c ∈ calls, c.1 = today) →
      (run_analytics_calls endpoint lastSent calls).2.countP
          (fun o => o.watermarkUpdated) ≤ 1) := by
  refine ⟨?_, ?_, ?_, ?_⟩
  · intro hatt
    unfold try_send_daily_analytics at hatt
    by_cases hgate : should_send_analytics lastSent today = true
    · cases lastSent with
      | absent => exact Or.inl rfl
      | unparseable raw => exact Or.inr (Or.inl ⟨raw, rfl⟩)
      | date d =>
        refine Or.inr (Or.inr ⟨d, rfl, ?_⟩)
        have hgt : today > d := by simpa [should_send_analytics] using hgate
        omega
    · rw [if_neg hgate] at hatt
      exact absurd hatt (by simp)
  · intro hupd
    unfold try_send_daily_analytics send_analytics_background at hupd ⊢
    by_cases hgate : should_send_analytics lastSent today = true
    · rw [if_pos hgate] at hupd ⊢
      cases endpoint with
      | none => exact absurd hupd (by simp)
      | some e =>
        by_cases hresp : respStatus = 200
        · simp [hresp]
        · simp [hresp] at hupd
    · rw [if_neg hgate] at hupd
      exact absurd hupd (by simp)
  · intro hnupd
    unfold try_send_daily_analytics send_analytics_background at hnupd ⊢
    by_cases hgate : should_send_analytics lastSent today = true
    · rw [if_pos hgate] at hnupd ⊢
      cases endpoint with
      | none => rfl
      | some e =>
        by_cases hresp : respStatus = 200
        · simp [hresp] at hnupd
        · simp [hresp]
    · rw [if_neg hgate] at hnupd ⊢
  · intro calls
    induction calls generalizing lastSent with
    | nil => intro _; simp [run_analytics_calls]
    | cons c rest ih =>
      intro hday
      have hc := hday c (by simp)
      obtain ⟨d, r⟩ := c
      simp only at hc
      subst hc
      simp only [run_analytics_calls, List.countP_cons]
      by_cases hupd : (try_send_daily_analytics endpoint lastSent d r).2.watermarkUpdated = true
      · have hstate : (try_send_daily_analytics endpoint lastSent d r).1 = .date d := by
          unfold try_send_daily_analytics send_analytics_background at hupd ⊢
          by_cases hgate : should_send_analytics lastSent d = true
          · rw [if_pos hgate] at hupd ⊢
            cases endpoint with
            | none => exact absurd hupd (by simp)
            | some e =>
              by_cases hresp : r = 200
              · simp [hresp]
              · simp [hresp] at hupd
          · rw [if_neg hgate] at hupd
            exact absurd hupd (by simp)
        have hrest : (run_analytics_calls endpoint
            (try_send_daily_analytics endpoint lastSent d r).1 rest).2.countP
              (fun o => o.watermarkUpdated) = 0 := by
          rw [hstate]
          exact run_analytics_calls_no_update_from_today endpoint d rest
            (fun c hc => hday c (List.mem_cons_of_mem _ hc))
        rw [hrest]
        simp [hupd]
      · have hstate : (try_send_daily_analytics endpoint lastSent d r).1 = lastSent := by
          unfold try_send_daily_analytics send_analytics_background at hupd ⊢
          by_cases hgate : should_send_analytics lastSent d = true
          · rw [if_pos hgate] at hupd ⊢
            cases endpoint with
            | none => rfl
            | some e =>
              by_cases hresp : r = 200
              · simp [hresp] at hupd
              · simp [hresp]
          · rw [if_neg hgate]
        rw [hstate]
        have hle := ih lastSent (fun c hc => hday c (List.mem_cons_of_mem _ hc))
        simpa [hupd] using hle

/-- Witness for C5 (amended): with the watermark at day 4, a call on day 5
satisfies the gate, and two successful same-day calls update the watermark
at most once. -/
theorem analytics_daily_flush_gate_witness :
    ((LastSent.date 4) = .absent ∨ (∃ raw, (LastSent.date 4) = .unparseable raw) ∨
      (∃ d, (LastSent.date 4) = .date d ∧ d < 5)) ∧
    (run_analytics_calls (some "endpoint") (.date 4) [(5, 200), (5, 200)]).2.countP
        (fun o => o.watermarkUpdated) ≤ 1 :=
  ⟨(analytics_daily_flush_gate (some "endpoint") (.date 4) 5 200).1 (by decide),
   (analytics_daily_flush_gate (some "endpoint") (.date 4) 5 200).2.2.2
     [(5, 200), (5, 200)] (by decide)⟩

/-- Claim C1 (evaluation at the failing input): with the tutorial paused on
panel-dependent step index 3, the event `"panel_opened"` leaves the state
unchanged — still paused, UI hidden, same index — because `handle_event`
returns early for paused tutorials before its resume branch can run. -/
theorem paused_tutorial_ignores_panel_opened :
    handle_event tutorialSteps ⟨true, 3, true, false, true, 3⟩ "panel_opened"
      = some ⟨true, 3, true, false, true, 3⟩ ∧
    (⟨true, 3, true, false, true, 3⟩ : TMState).is_paused = true := by
  constructor
  · rfl
  · rfl

/-- No step of the concrete tutorial uses `"panel_closed"` as its advance
trigger. -/
theorem tutorialSteps_no_panel_closed_trigger :
    ∀ st ∈ tutorialSteps, st.advance_on_event ≠ some "panel_closed" := by
  intro st hst
  have hall : tutorialSteps.all
      (fun st => st.advance_on_event != some "panel_closed") = true := by decide
  have h2 := List.all_eq_true.mp hall st hst
  simpa using h2

/-- For an active, unpaused tutorial and an event other than
`"panel_closed"`, `handle_event` reduces to the advance check on the
current step. -/
theorem handle_event_plain (steps : List TutorialStep) (s : TMState) (e : String)
    (hactive : s.tutorial_active = true) (hpause : s.is_paused = false)
    (hne : e ≠ "panel_closed") :
    handle_event steps s e =
      match steps.get? s.current_step_index with
      | none => none
      | some step =>
        if step.advance_on_event = some e then some (advance_to_next_step steps s)
        else some s := by
  unfold handle_event
  rw [if_neg (by simp [hactive, hpause]), if_neg hne,
    if_neg (show ¬(e = "panel_opened" ∧ s.is_paused = true) by simp [hpause])]
  exact rfl

/-- Field bookkeeping of `advance_to_next_step`: the index always moves to
`index + 1`; running past the end completes the tutorial (deactivated,
completion persisted, UI hidden), otherwise the tutorial stays active. -/
theorem advance_to_next_step_fields (steps : List TutorialStep) (s : TMState)
    (hactive : s.tutorial_active = true) :
    (advance_to_next_step steps s).current_step_index = s.current_step_index + 1 ∧
    (steps.length ≤ s.current_step_index + 1 →
      (advance_to_next_step steps s).tutorial_active = false ∧
      (advance_to_next_step steps s).tutorial_completed = true ∧
      (advance_to_next_step steps s).coach_visible = false ∧
      (advance_to_next_step steps s).tutorial_step_index = steps.length) ∧
    (s.current_step_index + 1 < steps.length →
      (advance_to_next_step steps s).tutorial_active = true) := by
  unfold advance_to_next_step complete_tutorial save_completion hide_all
    show_current_step save_progress
  by_cases hend : steps.length ≤ s.current_step_index + 1
  · simp [hend]
  · simp [hend, hactive]

/-- Claim C6: in an active, unpaused tutorial at step index `i`, an event
equal to step `i`'s `advance_on_event` moves the index to `i + 1`,
completing the tutorial (deactivated, completion persisted, UI hidden) when
`i + 1` reaches the end of the step list; any other event leaves the index
at `i`. -/
theorem tutorial_event_advance (s : TMState) (e : String)
    (hactive : s.tutorial_active = true) (hpause : s.is_paused = false)
    (h : s.current_step_index < tutorialSteps.length) :
    ((tutorialSteps.get ⟨s.current_step_index, h⟩).advance_on_event = some e →
      ∃ s', handle_event tutorialSteps s e = some s' ∧
        s'.current_step_index = s.current_step_index + 1 ∧
        (tutorialSteps.length ≤ s.current_step_index + 1 →
          s'.tutorial_active = false ∧ s'.tutorial_completed = true ∧
          s'.coach_visible = false ∧ s'.tutorial_step_index = tutorialSteps.length) ∧
        (s.current_step_index + 1 < tutorialSteps.length →
          s'.tutorial_active = true)) ∧
    ((tutorialSteps.get ⟨s.current_step_index, h⟩).advance_on_event ≠ some e →
      ∃ s', handle_event tutorialSteps s e = some s' ∧
        s'.current_step_index = s.current_step_index) := by
  have hget : tutorialSteps.get? s.current_step_index
      = some (tutorialSteps.get ⟨s.current_step_index, h⟩) := List.get?_eq_get h
  constructor
  · intro htrig
    have he_closed : e ≠ "panel_closed" := by
      intro he
      subst he
      exact tutorialSteps_no_panel_closed_trigger _ (tutorialSteps.get_mem _ _) htrig
    have heq := handle_event_plain tutorialSteps s e hactive hpause he_closed
    rw [hget] at heq
    have heq2 : handle_event tutorialSteps s e =
        if (tutorialSteps.get ⟨s.current_step_index, h⟩).advance_on_event = some e then
          some (advance_to_next_step tutorialSteps s)
        else some s := heq
    rw [if_pos htrig] at heq2
    obtain ⟨hidx, hcomp, hact⟩ := advance_to_next_step_fields tutorialSteps s hactive
    exact ⟨advance_to_next_step tutorialSteps s, heq2, hidx, hcomp, hact⟩
  · intro htrig
    by_cases hec : e = "panel_closed"
    · subst hec
      unfold handle_event
      rw [if_neg (by simp [hactive, hpause]), if_pos rfl]
      by_cases h345 : s.current_step_index = 3 ∨ s.current_step_index = 4 ∨
          s.current_step_index = 5
      · rw [if_pos h345]
        exact ⟨pause_tutorial s, rfl, rfl⟩
      · rw [if_neg h345]
        exact ⟨s, rfl, rfl⟩
    · have heq := handle_event_plain tutorialSteps s e hactive hpause hec
      rw [hget] at heq
      have heq2 : handle_event tutorialSteps s e =
          if (tutorialSteps.get ⟨s.current_step_index, h⟩).advance_on_event = some e then
            some (advance_to_next_step tutorialSteps s)
          else some s := heq
      rw [if_neg htrig] at heq2
      exact ⟨s, heq2, rfl⟩

/-- Witness for C6 at the spec example: firing `"panel_toggled"` at index 0
advances to index 1 (tutorial still active, 42 steps remain); firing the
unrelated `"settings_opened"` at index 1 leaves the index at 1. -/
theorem tutorial_event_advance_witness :
    (∃ s', handle_event tutorialSteps ⟨true, 0, false, true, false, 0⟩ "panel_toggled"
        = some s' ∧
      s'.current_step_index = 0 + 1 ∧
      (tutorialSteps.length ≤ 0 + 1 →
        s'.tutorial_active = false ∧ s'.tutorial_completed = true ∧
        s'.coach_visible = false ∧ s'.tutorial_step_index = tutorialSteps.length) ∧
      (0 + 1 < tutorialSteps.length → s'.tutorial_active = true)) ∧
    (∃ s', handle_event tutorialSteps ⟨true, 1, false, true, false, 1⟩ "settings_opened"
        = some s' ∧
      s'.current_step_index = 1) :=
  ⟨(tutorial_event_advance ⟨true, 0, false, true, false, 0⟩ "panel_toggled"
      rfl rfl (by decide)).1 (by decide),
   (tutorial_event_advance ⟨true, 1, false, true, false, 1⟩ "settings_opened"
      rfl rfl (by decide)).2 (by decide)⟩

/-- A successful association-list lookup comes from an entry of the list. -/
theorem mem_of_lookup_eq_some {l : List (Char × List Char)} {c : Char} {u : List Char}
    (h : l.lookup c = some u) : (c, u) ∈ l := by
  induction l with
  | nil => exact absurd h (by simp)
  | cons e es ih =>
    obtain ⟨k, v⟩ := e
    cases hck : (c == k) with
    | true =>
      have hcv : some v = some u := by simpa [List.lookup, hck] using h
      have hvu : v = u := by injection hcv
      subst hvu
      have hckk : c = k := eq_of_beq hck
      subst hckk
      exact List.mem_cons_self _ _
    | false =>
      have h2 : es.lookup c = some u := by simpa [List.lookup, hck] using h
      exact List.mem_cons_of_mem _ (ih h2)

/-- The full uppercase of a length-1 key is never one of the five modifier
labels: the tabulated expansions all differ from them, and a
single-character image has the wrong length. -/
theorem jsUpper_ne_modifier (k : String) (hk : k.length = 1) (m : String)
    (hm : m ∈ modifierNames) : jsToUpper k ≠ m := by
  obtain ⟨l⟩ := k
  have hk1 : l.length = 1 := hk
  obtain ⟨c, rfl⟩ := List.length_eq_one.mp hk1
  have hj : jsToUpper ⟨[c]⟩ = ⟨jsUpperChar c⟩ := by
    show (⟨[c].flatMap jsUpperChar⟩ : String) = ⟨jsUpperChar c⟩
    simp
  rw [hj]
  cases hl : jsSpecialUpperTable.lookup c with
  | none =>
    have hc : jsUpperChar c = [c.toUpper] := by unfold jsUpperChar; rw [hl]
    rw [hc]
    intro he
    have hlen := congrArg String.length he
    have h1 : (String.mk [c.toUpper]).length = 1 := rfl
    rw [h1] at hlen
    fin_cases hm <;> exact absurd hlen (by decide)
  | some u =>
    have hc : jsUpperChar c = u := by unfold jsUpperChar; rw [hl]
    rw [hc]
    have hmem := mem_of_lookup_eq_some hl
    have htab : ∀ e ∈ jsSpecialUpperTable, ∀ m2 ∈ modifierNames, String.mk e.2 ≠ m2 := by
      decide
    exact htab (c, u) hmem m hm

/-- The entries of `pressedKeys` are pairwise distinct, as the keys of the
JS object are. -/
theorem pressedKeys_nodup (isMac : Bool) (e : KeyEvent) :
    (pressedKeys isMac e).Nodup := by
  obtain ⟨sh, ct, me, al, k⟩ := e
  by_cases hk : k.length = 1
  · have h1 := jsUpper_ne_modifier k hk "Shift" (by decide)
    have h2 := jsUpper_ne_modifier k hk "Control" (by decide)
    have h3 := jsUpper_ne_modifier k hk "Meta" (by decide)
    have h4 := jsUpper_ne_modifier k hk "Control/Meta" (by decide)
    have h5 := jsUpper_ne_modifier k hk "Alt" (by decide)
    have h1s := Ne.symm h1
    have h2s := Ne.symm h2
    have h3s := Ne.symm h3
    have h4s := Ne.symm h4
    have h5s := Ne.symm h5
    cases isMac <;> cases sh <;> cases ct <;> cases me <;> cases al <;>
      simp [pressedKeys, hk, h1, h2, h3, h4, h5, h1s, h2s, h3s, h4s, h5s]
  · cases isMac <;> cases sh <;> cases ct <;> cases me <;> cases al <;>
      simp [pressedKeys, hk]

/-- Claim C7: the dispatch loop triggers exactly the first keybinding in
list order whose key set matches; a key set matches iff every required key
is held and the held-key count equals the required count; and holding any
extra key beyond a (duplicate-free) required set prevents a match. -/
theorem keydown_first_match (isMac : Bool) (e : KeyEvent)
    (bindings : List Keybinding) (b : Keybinding)
    (requiredKeys : List String) (extra : String) :
    (firstTriggered isMac e bindings = some b ↔
      ∃ (i : Nat) (hi : i < bindings.length),
        bindings.get ⟨i, hi⟩ = b ∧ keysMatch isMac e b.keys = true ∧
        ∀ (j : Nat) (hj : j < i),
          keysMatch isMac e ((bindings.get ⟨j, Nat.lt_trans hj hi⟩).keys) = false) ∧
    (keysMatch isMac e requiredKeys = true ↔
      ((∀ k ∈ requiredKeys, k ∈ pressedKeys isMac e) ∧
       (pressedKeys isMac e).length = requiredKeys.length)) ∧
    (requiredKeys.Nodup → (∀ k ∈ requiredKeys, k ∈ pressedKeys isMac e) →
      extra ∈ pressedKeys isMac e → extra ∉ requiredKeys →
      keysMatch isMac e requiredKeys = false) := by
  have hmatch_iff : ∀ req : List String, keysMatch isMac e req = true ↔
      ((∀ k ∈ req, k ∈ pressedKeys isMac e) ∧
       (pressedKeys isMac e).length = req.length) := by
    intro req
    unfold keysMatch
    rw [Bool.and_eq_true, List.all_eq_true, Nat.beq_eq_true_eq]
    constructor
    · rintro ⟨hall, hlen⟩
      exact ⟨fun k hk => by simpa using hall k hk, hlen⟩
    · rintro ⟨hall, hlen⟩
      exact ⟨fun k hk => by simpa using hall k hk, hlen⟩
  refine ⟨?_, hmatch_iff requiredKeys, ?_⟩
  · induction bindings with
    | nil =>
      constructor
      · intro hb
        exact absurd hb (by simp [firstTriggered])
      · rintro ⟨i, hi, _⟩
        exact absurd hi (by simp)
    | cons hd tl ih =>
      by_cases hm : keysMatch isMac e hd.keys = true
      · rw [firstTriggered, if_pos hm]
        constructor
        · intro hb
          have hbd : hd = b := by injection hb
          subst hbd
          exact ⟨0, by simp, rfl, hm, fun j hj => absurd hj (Nat.not_lt_zero j)⟩
        · rintro ⟨i, hi, hbi, hmb, hprev⟩
          cases i with
          | zero =>
            rw [← hbi]
            exact rfl
          | succ i' =>
            have h0 := hprev 0 (Nat.succ_pos i')
            simp only [List.get] at h0
            rw [h0] at hm
            exact absurd hm (by simp)
      · rw [firstTriggered, if_neg hm]
        rw [ih]
        constructor
        · rintro ⟨i, hi, hbi, hmb, hprev⟩
          refine ⟨i + 1, Nat.succ_lt_succ hi, hbi, hmb, ?_⟩
          intro j hj
          cases j with
          | zero =>
            show keysMatch isMac e hd.keys = false
            cases h : keysMatch isMac e hd.keys
            · rfl
            · exact absurd h hm
          | succ j' =>
            exact hprev j' (Nat.lt_of_succ_lt_succ hj)
        · rintro ⟨i, hi, hbi, hmb, hprev⟩
          cases i with
          | zero =>
            have hbd : hd = b := hbi
            subst hbd
            exact absurd hmb hm
          | succ i' =>
            refine ⟨i', Nat.lt_of_succ_lt_succ hi, hbi, hmb, ?_⟩
            intro j hj
            exact hprev (j + 1) (Nat.succ_lt_succ hj)
  · intro hnodup hsub hextra hnotin
    cases hres : keysMatch isMac e requiredKeys
    · rfl
    · exfalso
      obtain ⟨_, hlen⟩ := (hmatch_iff requiredKeys).mp hres
      have hsub' : requiredKeys ⊆ (pressedKeys isMac e).erase extra := by
        intro x hx
        have hne : x ≠ extra := fun he => hnotin (by rw [← he]; exact hx)
        exact (List.mem_erase_of_ne hne).mpr (hsub x hx)
      have h1 : requiredKeys.length ≤ ((pressedKeys isMac e).erase extra).length :=
        (hnodup.subperm hsub').length_le
      rw [List.length_erase_of_mem hextra] at h1
      have h2 : 0 < (pressedKeys isMac e).length := List.length_pos.mpr
        (fun hnil => by rw [hnil] at hextra; exact absurd hextra (by simp))
      omega

/-- Witness for C7: on macOS, holding Control+Shift+S matches the default
"Standard Explain" binding (the first and only entry), while additionally
holding Alt prevents the match. -/
theorem keydown_first_match_witness :
    firstTriggered true ⟨true, true, false, false, "s"⟩
        [⟨"Standard Explain", ["Control", "Shift", "S"], "", ""⟩]
      = some ⟨"Standard Explain", ["Control", "Shift", "S"], "", ""⟩ ∧
    keysMatch true ⟨true, true, false, true, "s"⟩ ["Control", "Shift", "S"] = false :=
  ⟨(keydown_first_match true ⟨true, true, false, false, "s"⟩
      [⟨"Standard Explain", ["Control", "Shift", "S"], "", ""⟩]
      ⟨"Standard Explain", ["Control", "Shift", "S"], "", ""⟩ [] "x").1.mpr
      ⟨0, by decide, rfl, by decide, fun j hj => absurd hj (Nat.not_lt_zero j)⟩,
   (keydown_first_match true ⟨true, true, false, true, "s"⟩ []
      ⟨"", [], "", ""⟩ ["Control", "Shift", "S"] "Alt").2.2
      (by decide) (by decide) (by decide) (by decide)⟩

end AIPanel
